import Mathlib

/-!
Verification of the engiffen conversion pipeline (src/src/lib.rs).

The pipeline converts an ordered sequence of RGBA raster images into an
indexed-color animated GIF structure: dimension validation, pixel sampling,
palette derivation through an external quantizer, per-pixel palette-index
mapping with a memoization cache, transparency resolution, frame timing,
and serialization of the assembled structure through an external encoder.

External capabilities (color_quant::NeuQuant, the gif crate's Encoder) are
abstracted at their interfaces, exactly as the library uses them: the
quantizer is a builder from the flat sampled byte sequence to a structure
providing nearest-index lookup and a flat RGB palette; the encoder is a
record of three fallible operations.
-/

namespace Engiffen

/-- An RGBA pixel; each channel is a byte 0-255 (`image::Rgba<u8>`,
whose `data` field is the 4-byte array `[r, g, b, a]`). -/
structure Pixel where
  r : Nat
  g : Nat
  b : Nat
  a : Nat
deriving DecidableEq, Repr

/-- The all-zero pixel, used only as a `getD` fallback. -/
def defaultPixel : Pixel := ⟨0, 0, 0, 0⟩

/-- A raster image (`engiffen::Image` wrapping `image::DynamicImage`):
width, height, and a row-major pixel buffer, pixel (x, y) stored at
index `y * width + x`. -/
structure Image where
  width : Nat
  height : Nat
  data : List Pixel
deriving DecidableEq, Repr

/-- Row-major pixel enumeration with coordinates, as the image crate's
`pixels()` iterator yields them: y outer, x inner, one `(x, y, px)`
triple per pixel of the `width × height` grid. -/
def pixelsOf (img : Image) : List (Nat × Nat × Pixel) :=
  (List.range img.height).flatMap (fun y =>
    (List.range img.width).map (fun x =>
      (x, y, img.data.getD (y * img.width + x) defaultPixel)))

/-- The pixel values of a frame in iteration order (the index-mapping pass
discards the coordinates). -/
def framePixels (img : Image) : List Pixel :=
  (pixelsOf img).map (fun t => t.2.2)

/-- The dimension pair of an image, as the Rust code reads it with
`(img.inner.width(), img.inner.height())`. -/
def dims (img : Image) : Nat × Nat := (img.width, img.height)

/-- The library's error enum. The payloads of `ImageLoad` and
`ImageWrite` are opaque external errors, represented by a code. -/
inductive Error where
  | NoImages : Error
  | Mismatch : (Nat × Nat) → (Nat × Nat) → Error
  | ImageLoad : Nat → Error
  | ImageWrite : Nat → Error
deriving DecidableEq, Repr

/-- The external quantization capability (`color_quant::NeuQuant`) at the
interface the pipeline uses: `index_of` is the nearest-palette-index
lookup on a 4-byte RGBA color, `color_map_rgb` the flat RGB palette. -/
structure Quant where
  index_of : Pixel → Nat
  color_map_rgb : List Nat

/-- The output aggregate (`engiffen::Gif`). `width`, `height` and `delay`
are u16 fields in the Rust struct; they are stored here already reduced
mod 2^16, mirroring the `as u16` casts at the construction site. -/
structure Gif where
  palette : List Nat
  transparency : Option Nat
  width : Nat
  height : Nat
  images : List (List Nat)
  delay : Nat
deriving DecidableEq, Repr

/-- The dimension-validation scan: walks the image sequence from the
front and returns the dimensions of the first image differing from
`first_dimensions` (the loop in `engiffen`, lines 224-229, which
short-circuits by returning the Mismatch error). -/
def firstMismatch (first_dimensions : Nat × Nat) : List Image → Option (Nat × Nat)
  | [] => none
  | img :: rest =>
      if dims img ≠ first_dimensions then some (dims img)
      else firstMismatch first_dimensions rest

/-- The byte quadruple the sampling loop pushes for one visited pixel:
`(0,0,0,0)` when alpha is zero, `(r,g,b,255)` otherwise (lines 244-254). -/
def samplePixel (px : Pixel) : List Nat :=
  if px.a = 0 then [0, 0, 0, 0] else [px.r, px.g, px.b, 255]

/-- The sampling pass (lines 235-256): visits every frame, every pixel;
when `skip_pixels > 1` it skips pixels whose x or y coordinate is not a
multiple of `skip_pixels`; pushes the alpha-normalized RGBA bytes of
each visited pixel onto the flat color buffer. -/
def sampleColors (imgs : List Image) (sample_rate : Option Nat) : List Nat :=
  let skip_pixels := sample_rate.getD 1
  imgs.flatMap (fun img =>
    (pixelsOf img).flatMap (fun t =>
      if skip_pixels > 1 ∧ (t.1 % skip_pixels ≠ 0 ∨ t.2.1 % skip_pixels ≠ 0) then []
      else samplePixel t.2.2))

/-- The memoization cache (`HashMap<[u8; 4], u8>`), modelled as an
association list from exact RGBA values to palette indices. -/
abbrev Cache := List (Pixel × Nat)

/-- Cache lookup by exact RGBA value. -/
def cacheFind : Cache → Pixel → Option Nat
  | [], _ => none
  | e :: rest, px => if e.1 = px then some e.2 else cacheFind rest px

/-- The mutable state of the index-mapping pass: the memoization cache
and the transparency marker (`transparency: Option<u8>`). -/
structure MapState where
  cache : Cache
  transparency : Option Nat
deriving Repr

/-- One pixel of the index-mapping pass
(`*cache.entry(px.data).or_insert_with(|| ...)`, lines 270-274): on a
cache hit the stored index is returned unchanged; on a miss the quantizer
is queried with the pixel's raw 4-byte RGBA value, the result is cached,
and when the pixel's alpha is zero the marker is assigned that index. -/
def mapPixel (quant : Quant) (st : MapState) (px : Pixel) : MapState × Nat :=
  match cacheFind st.cache px with
  | some idx => (st, idx)
  | none =>
      let idx := quant.index_of px
      let tr := if px.a = 0 then some idx else st.transparency
      (⟨(px, idx) :: st.cache, tr⟩, idx)

/-- Index-maps the pixels of one frame in order, threading the state. -/
def mapFrame (quant : Quant) (st : MapState) : List Pixel → MapState × List Nat
  | [] => (st, [])
  | px :: rest =>
      let s1 := mapPixel quant st px
      let s2 := mapFrame quant s1.1 rest
      (s2.1, s1.2 :: s2.2)

/-- Index-maps every frame in input order; the cache and the marker are
shared across frames (lines 266-276). -/
def mapFrames (quant : Quant) (st : MapState) : List Image → MapState × List (List Nat)
  | [] => (st, [])
  | img :: rest =>
      let s1 := mapFrame quant st (framePixels img)
      let s2 := mapFrames quant s1.1 rest
      (s2.1, s1.2 :: s2.2)

/-- The conversion pipeline (`engiffen`, lines 216-290), parameterized by
the external quantizer builder (`NeuQuant::new(10, 256, &colors)`):
empty-input check, dimension validation, sampling, palette build, index
mapping, and assembly of the output aggregate with
`delay = (1000 / fps) as u16`. -/
def engiffen (build : List Nat → Quant) (imgs : List Image) (fps : Nat)
    (sample_rate : Option Nat) : Except Error Gif :=
  match imgs with
  | [] => .error .NoImages
  | first :: _ =>
      let first_dimensions := dims first
      match firstMismatch first_dimensions imgs with
      | some other_dimensions =>
          .error (.Mismatch first_dimensions other_dimensions)
      | none =>
          let colors := sampleColors imgs sample_rate
          let quant := build colors
          let mapped := mapFrames quant ⟨[], none⟩ imgs
          .ok { palette := quant.color_map_rgb
                transparency := mapped.1.transparency
                width := first_dimensions.1 % 65536
                height := first_dimensions.2 % 65536
                images := mapped.2
                delay := (1000 / fps) % 65536 }

/-- The per-frame descriptor handed to the encoder (`gif::Frame` with the
fields `Gif::write` assigns: delay, width, height, buffer, transparent;
lines 133-138). -/
structure FrameDesc where
  delay : Nat
  width : Nat
  height : Nat
  buffer : List Nat
  transparent : Option Nat
deriving DecidableEq, Repr

/-- The frame descriptor `Gif::write` builds for one indexed frame:
`frame.delay = self.delay / 10`, canvas width and height, the frame's
index buffer, and the transparency marker. -/
def frameFor (g : Gif) (img : List Nat) : FrameDesc :=
  { delay := g.delay / 10
    width := g.width
    height := g.height
    buffer := img
    transparent := g.transparency }

/-- The external encoder capability (the gif crate) at the interface
`Gif::write` uses: construction with canvas size and palette, the
set-infinite-loop call, and the per-frame write. Each call is fallible;
state changes are modelled by returning the successor encoder value. -/
structure EncoderOps (ε enc : Type) where
  new : Nat → Nat → List Nat → Except ε enc
  set_repeat_infinite : enc → Except ε enc
  write_frame : enc → FrameDesc → Except ε enc

/-- The frame-writing loop of `Gif::write` (lines 132-140): one
`write_frame` per stored frame, in order, returning the first error
unchanged and attempting nothing further after it. -/
def writeFrames (ops : EncoderOps ε enc) (g : Gif) (e : enc) :
    List (List Nat) → Except ε enc
  | [] => .ok e
  | img :: rest =>
      (ops.write_frame e (frameFor g img)).bind (fun e1 => writeFrames ops g e1 rest)

/-- `Gif::write` (lines 129-142): one encoder construction with the
palette and canvas size, one set-infinite-loop call, then the
frame-writing loop; every `?` (embedded as `Except.bind`) propagates the
first error immediately. -/
def Gif.write (ops : EncoderOps ε enc) (g : Gif) : Except ε enc :=
  (ops.new g.width g.height g.palette).bind (fun e =>
    (ops.set_repeat_infinite e).bind (fun e1 => writeFrames ops g e1 g.images))

/-- One encoder call, for observing the call sequence `Gif.write`
makes against the encoder capability. -/
inductive EncCall where
  | newCall : Nat → Nat → List Nat → EncCall
  | loopCall : EncCall
  | frameCall : FrameDesc → EncCall
deriving DecidableEq, Repr

/-- A tracing instantiation of the encoder capability: the encoder value
is the list of calls made so far paired with the number of frame writes
performed; `write_frame` fails exactly when the count satisfies
`failFrame`, and a failure carries the trace up to and including the
failing call. -/
def traceOps (failFrame : Nat → Bool) :
    EncoderOps (List EncCall) (List EncCall × Nat) :=
  { new := fun w h p => .ok ([.newCall w h p], 0)
    set_repeat_infinite := fun e => .ok (e.1 ++ [.loopCall], e.2)
    write_frame := fun e f =>
      if failFrame e.2 then .error (e.1 ++ [.frameCall f])
      else .ok (e.1 ++ [.frameCall f], e.2 + 1) }

/-! ### Specification-shaped definitions

The following definitions follow the specification's words, not the
source; each exists only to be compared with the corresponding
source-derived definition above. -/

/-- The alpha normalization the specification describes: a transparent
pixel becomes the canonical (0,0,0,0), any other pixel (r,g,b,255). -/
def normalizeAlpha (px : Pixel) : Pixel :=
  if px.a = 0 then ⟨0, 0, 0, 0⟩ else ⟨px.r, px.g, px.b, 255⟩

/-- Index-mapping step as the specification describes it (spec §4.4): on
a cache miss the nearest-index query is made with the alpha-normalized
color instead of the raw RGBA value. Compare with `mapPixel`. -/
def mapPixelSpecNormalized (quant : Quant) (st : MapState) (px : Pixel) :
    MapState × Nat :=
  match cacheFind st.cache px with
  | some idx => (st, idx)
  | none =>
      let idx := quant.index_of (normalizeAlpha px)
      let tr := if px.a = 0 then some idx else st.transparency
      (⟨(px, idx) :: st.cache, tr⟩, idx)

/-- Frame pass built on `mapPixelSpecNormalized`; compare `mapFrame`. -/
def mapFrameSpecNormalized (quant : Quant) (st : MapState) :
    List Pixel → MapState × List Nat
  | [] => (st, [])
  | px :: rest =>
      let s1 := mapPixelSpecNormalized quant st px
      let s2 := mapFrameSpecNormalized quant s1.1 rest
      (s2.1, s1.2 :: s2.2)

/-- The RGBA quadruple the specification says the sampler emits for a
visited pixel (spec §4.2). -/
def quadOf (px : Pixel) : Nat × Nat × Nat × Nat :=
  if px.a = 0 then (0, 0, 0, 0) else (px.r, px.g, px.b, 255)

/-- Sampling pass as the specification describes it (spec §4.2): per
frame, keep exactly the pixels whose column and row indices are both
divisible by the stride, in row-major order, one quadruple each.
Compare with `sampleColors` after flattening. -/
def sampleQuadsSpec (imgs : List Image) (stride : Nat) :
    List (Nat × Nat × Nat × Nat) :=
  imgs.flatMap (fun img =>
    ((pixelsOf img).filter (fun t =>
        decide (t.1 % stride = 0 ∧ t.2.1 % stride = 0))).map
      (fun t => quadOf t.2.2))

/-- Flattens a quadruple sequence to the flat byte buffer. -/
def flattenQuads (qs : List (Nat × Nat × Nat × Nat)) : List Nat :=
  qs.flatMap (fun q => [q.1, q.2.1, q.2.2.1, q.2.2.2])

/-! ### Position lookups used by the claims -/

/-- The pixel at frame `i`, position `j` of the input sequence (iteration
order), when in bounds. -/
def pixelAt (imgs : List Image) (i j : Nat) : Option Pixel :=
  imgs[i]?.bind (fun img => (framePixels img)[j]?)

/-- The palette index at frame `i`, position `j` of the output, when in
bounds. -/
def indexAt (g : Gif) (i j : Nat) : Option Nat :=
  g.images[i]?.bind (fun f => f[j]?)

/-! ### Concrete instances for counterexamples and witnesses -/

/-- A concrete quantizer whose nearest-index lookup returns the red
channel: it distinguishes colors that alpha normalization identifies. -/
def quantR : Quant := ⟨fun px => px.r % 256, [0, 0, 0]⟩

/-- A concrete builder returning `quantR` whatever the samples are. -/
def buildR : List Nat → Quant := fun _ => quantR

/-- A 2×1 image whose two pixels are both fully transparent but have
different red bytes. -/
def imgTwoTransparent : Image := ⟨2, 1, [⟨0, 0, 0, 0⟩, ⟨5, 0, 0, 0⟩]⟩

/-- A 1×1 image holding one transparent pixel with a nonzero red byte. -/
def imgRedTransparent : Image := ⟨1, 1, [⟨5, 0, 0, 0⟩]⟩

/-- A 1×1 image holding one opaque pixel. -/
def imgOpaque : Image := ⟨1, 1, [⟨7, 8, 9, 255⟩]⟩

/-- A 2×2 image holding four opaque pixels. -/
def imgOpaque22 : Image := ⟨2, 2, [⟨1, 0, 0, 255⟩, ⟨2, 0, 0, 255⟩, ⟨3, 0, 0, 255⟩, ⟨4, 0, 0, 255⟩]⟩

/-! ### Cache invariant and the index-map characterization -/

/-- Every entry of the cache stores the quantizer's answer for its key. -/
def CacheOK (quant : Quant) (c : Cache) : Prop :=
  ∀ px idx, cacheFind c px = some idx → idx = quant.index_of px

theorem cacheOK_nil (quant : Quant) : CacheOK quant [] := by
  intro px idx h
  simp [cacheFind] at h

theorem cacheFind_cons (e : Pixel × Nat) (c : Cache) (px : Pixel) :
    cacheFind (e :: c) px = if e.1 = px then some e.2 else cacheFind c px := rfl

theorem mapPixel_idx (quant : Quant) (st : MapState) (px : Pixel)
    (h : CacheOK quant st.cache) : (mapPixel quant st px).2 = quant.index_of px := by
  unfold mapPixel
  cases hc : cacheFind st.cache px with
  | none => rfl
  | some idx => exact h px idx hc

theorem mapPixel_cacheOK (quant : Quant) (st : MapState) (px : Pixel)
    (h : CacheOK quant st.cache) : CacheOK quant (mapPixel quant st px).1.cache := by
  unfold mapPixel
  cases hc : cacheFind st.cache px with
  | none =>
      intro q i hq
      rw [cacheFind_cons] at hq
      by_cases hpq : px = q
      · simp [hpq] at hq
        subst hpq
        omega
      · simp [hpq] at hq
        exact h q i hq
  | some idx => exact h

theorem mapFrame_char (quant : Quant) (pxs : List Pixel) :
    ∀ st : MapState, CacheOK quant st.cache →
      (mapFrame quant st pxs).2 = pxs.map quant.index_of ∧
        CacheOK quant (mapFrame quant st pxs).1.cache := by
  induction pxs with
  | nil => intro st h; exact ⟨rfl, h⟩
  | cons px rest ih =>
      intro st h
      have h1 := mapPixel_idx quant st px h
      have h2 := mapPixel_cacheOK quant st px h
      have h3 := ih (mapPixel quant st px).1 h2
      refine ⟨?_, h3.2⟩
      simp only [mapFrame, List.map_cons]
      rw [h1, h3.1]

theorem mapFrames_char (quant : Quant) (imgs : List Image) :
    ∀ st : MapState, CacheOK quant st.cache →
      (mapFrames quant st imgs).2 =
          imgs.map (fun img => (framePixels img).map quant.index_of) ∧
        CacheOK quant (mapFrames quant st imgs).1.cache := by
  induction imgs with
  | nil => intro st h; exact ⟨rfl, h⟩
  | cons img rest ih =>
      intro st h
      have h1 := mapFrame_char quant (framePixels img) st h
      have h3 := ih (mapFrame quant st (framePixels img)).1 h1.2
      refine ⟨?_, h3.2⟩
      simp only [mapFrames, List.map_cons]
      rw [h1.1, h3.1]

/-! ### Shape of a successful conversion -/

theorem engiffen_cons_eq (build : List Nat → Quant) (first : Image)
    (rest : List Image) (fps : Nat) (sr : Option Nat)
    (h : firstMismatch (dims first) (first :: rest) = none) :
    engiffen build (first :: rest) fps sr =
      .ok { palette := (build (sampleColors (first :: rest) sr)).color_map_rgb
            transparency :=
              (mapFrames (build (sampleColors (first :: rest) sr))
                ⟨[], none⟩ (first :: rest)).1.transparency
            width := first.width % 65536
            height := first.height % 65536
            images :=
              (first :: rest).map (fun img =>
                (framePixels img).map
                  (build (sampleColors (first :: rest) sr)).index_of)
            delay := (1000 / fps) % 65536 } := by
  have hm := (mapFrames_char (build (sampleColors (first :: rest) sr))
    (first :: rest) ⟨[], none⟩ (cacheOK_nil _)).1
  simp only [engiffen, h]
  rw [hm]
  rfl

theorem engiffen_ok_inv (build : List Nat → Quant) (imgs : List Image)
    (fps : Nat) (sr : Option Nat) (g : Gif)
    (h : engiffen build imgs fps sr = .ok g) :
    g.images = imgs.map (fun img =>
        (framePixels img).map (build (sampleColors imgs sr)).index_of) ∧
      g.delay = (1000 / fps) % 65536 := by
  cases imgs with
  | nil => simp [engiffen] at h
  | cons first rest =>
      cases hm : firstMismatch (dims first) (first :: rest) with
      | some d => simp [engiffen, hm] at h
      | none =>
          rw [engiffen_cons_eq build first rest fps sr hm] at h
          cases h
          exact ⟨rfl, rfl⟩

theorem engiffen_indexAt (build : List Nat → Quant) (imgs : List Image)
    (fps : Nat) (sr : Option Nat) (g : Gif) (i j : Nat)
    (h : engiffen build imgs fps sr = .ok g) :
    indexAt g i j =
      (pixelAt imgs i j).map (build (sampleColors imgs sr)).index_of := by
  have himg := (engiffen_ok_inv build imgs fps sr g h).1
  simp only [indexAt, pixelAt, himg, List.getElem?_map]
  cases imgs[i]? with
  | none => rfl
  | some img => simp [List.getElem?_map]

/-! ### Dimension-check lemmas -/

theorem firstMismatch_eq_none_iff (fd : Nat × Nat) (imgs : List Image) :
    firstMismatch fd imgs = none ↔ ∀ img ∈ imgs, dims img = fd := by
  induction imgs with
  | nil => simp [firstMismatch]
  | cons img rest ih =>
      by_cases h : dims img = fd
      · simp [firstMismatch, h, ih]
      · simp [firstMismatch, h]

theorem firstMismatch_eq_find (fd : Nat × Nat) (imgs : List Image) :
    firstMismatch fd imgs =
      (imgs.find? (fun img => decide (dims img ≠ fd))).map dims := by
  induction imgs with
  | nil => rfl
  | cons img rest ih =>
      by_cases h : dims img = fd
      · simp [firstMismatch, List.find?_cons, h, ih]
      · simp [firstMismatch, List.find?_cons, h]

/-! ### Transparency-marker lemmas -/

theorem mapPixel_transparency_isSome (quant : Quant) (st : MapState) (px : Pixel)
    (h : st.transparency.isSome = true) :
    (mapPixel quant st px).1.transparency.isSome = true := by
  unfold mapPixel
  cases hc : cacheFind st.cache px with
  | some idx => exact h
  | none =>
      by_cases ha : px.a = 0
      · simp [ha]
      · simpa [ha] using h

theorem mapFrame_transparency_isSome (quant : Quant) (pxs : List Pixel) :
    ∀ st : MapState, st.transparency.isSome = true →
      (mapFrame quant st pxs).1.transparency.isSome = true := by
  induction pxs with
  | nil => intro st h; exact h
  | cons px rest ih =>
      intro st h
      exact ih (mapPixel quant st px).1 (mapPixel_transparency_isSome quant st px h)

theorem mapFrames_transparency_isSome (quant : Quant) (imgs : List Image) :
    ∀ st : MapState, st.transparency.isSome = true →
      (mapFrames quant st imgs).1.transparency.isSome = true := by
  induction imgs with
  | nil => intro st h; exact h
  | cons img rest ih =>
      intro st h
      exact ih (mapFrame quant st (framePixels img)).1
        (mapFrame_transparency_isSome quant (framePixels img) st h)

theorem mapPixel_transparent_miss (quant : Quant) (st : MapState) (px : Pixel)
    (ha : px.a = 0) (hc : cacheFind st.cache px = none) :
    (mapPixel quant st px).1.transparency = some (quant.index_of px) := by
  simp [mapPixel, hc, ha]

/-! ### Sampling lemmas -/

theorem flattenQuads_quadOf (px : Pixel) :
    (fun q : Nat × Nat × Nat × Nat => [q.1, q.2.1, q.2.2.1, q.2.2.2]) (quadOf px) =
      samplePixel px := by
  unfold quadOf samplePixel
  by_cases h : px.a = 0 <;> simp [h]

theorem flatMap_filter (l : List α) (p : α → Bool) (g : α → List β) :
    (l.filter p).flatMap g = l.flatMap (fun x => if p x = true then g x else []) := by
  induction l with
  | nil => rfl
  | cons x xs ih =>
      by_cases h : p x = true
      · simp [List.filter_cons, h, ih]
      · simp [List.filter_cons, h, ih]

theorem sample_cond (S x y : Nat) (hS : 1 ≤ S) (px : Pixel) :
    (if S > 1 ∧ (x % S ≠ 0 ∨ y % S ≠ 0) then ([] : List Nat) else samplePixel px) =
      (if (decide (x % S = 0 ∧ y % S = 0)) = true then samplePixel px else []) := by
  rcases Nat.lt_or_ge S 2 with h2 | h2
  · have hS1 : S = 1 := by omega
    subst hS1
    simp [Nat.mod_one]
  · have hgt : S > 1 := by omega
    by_cases hx : x % S = 0
    · by_cases hy : y % S = 0
      · simp [hx, hy]
      · simp [hx, hy, hgt]
    · simp [hx, hgt]

theorem sampleColors_eq_spec (imgs : List Image) (S : Nat) (hS : 1 ≤ S) :
    sampleColors imgs (some S) = flattenQuads (sampleQuadsSpec imgs S) := by
  unfold sampleColors sampleQuadsSpec flattenQuads
  simp only [Option.getD_some, List.flatMap_assoc]
  congr 1
  funext img
  rw [List.flatMap_map, flatMap_filter]
  congr 1
  funext t
  rw [show ([(quadOf t.2.2).1, (quadOf t.2.2).2.1, (quadOf t.2.2).2.2.1,
        (quadOf t.2.2).2.2.2] : List Nat) = samplePixel t.2.2 from
      flattenQuads_quadOf t.2.2]
  exact sample_cond S t.1 t.2.1 hS t.2.2

theorem sampleColors_none_eq_one (imgs : List Image) :
    sampleColors imgs none = sampleColors imgs (some 1) := rfl

theorem sampleColors_zero_eq_none (imgs : List Image) :
    sampleColors imgs (some 0) = sampleColors imgs none := by
  unfold sampleColors
  simp

/-- Only the sampled color buffer depends on the stride, so equal buffers
give equal conversions. -/
theorem engiffen_congr_colors (build : List Nat → Quant) (imgs : List Image)
    (fps : Nat) (sr1 sr2 : Option Nat)
    (h : sampleColors imgs sr1 = sampleColors imgs sr2) :
    engiffen build imgs fps sr1 = engiffen build imgs fps sr2 := by
  cases imgs with
  | nil => rfl
  | cons first rest =>
      simp only [engiffen, h]

/-! ### Frame-size lemmas -/

theorem pixelsOf_length (img : Image) :
    (pixelsOf img).length = img.height * img.width := by
  unfold pixelsOf
  rw [List.length_flatMap]
  simp [Function.comp_def, List.map_const', List.sum_replicate, smul_eq_mul]

theorem framePixels_length (img : Image) :
    (framePixels img).length = img.height * img.width := by
  unfold framePixels
  rw [List.length_map, pixelsOf_length]

/-! ### Container-writer trace lemmas -/

theorem writeFrames_trace_ok (g : Gif) (imgs : List (List Nat)) :
    ∀ (tr : List EncCall) (n : Nat),
      writeFrames (traceOps (fun _ => false)) g (tr, n) imgs =
        .ok (tr ++ imgs.map (fun i => .frameCall (frameFor g i)), n + imgs.length) := by
  induction imgs with
  | nil => intro tr n; simp [writeFrames]
  | cons i rest ih =>
      intro tr n
      rw [show writeFrames (traceOps (fun _ => false)) g (tr, n) (i :: rest) =
          writeFrames (traceOps (fun _ => false)) g
            (tr ++ [EncCall.frameCall (frameFor g i)], n + 1) rest from rfl]
      rw [ih (tr ++ [EncCall.frameCall (frameFor g i)]) (n + 1)]
      simp only [List.map_cons, List.length_cons, List.append_assoc,
        List.singleton_append]
      rw [show n + 1 + rest.length = n + (rest.length + 1) from by omega]

theorem writeFrames_trace_fail (g : Gif) (imgs : List (List Nat)) :
    ∀ (j n : Nat) (tr : List EncCall), j < imgs.length →
      writeFrames (traceOps (fun c => decide (c = n + j))) g (tr, n) imgs =
        .error (tr ++ (imgs.take (j + 1)).map (fun i => .frameCall (frameFor g i))) := by
  induction imgs with
  | nil => intro j n tr hj; simp at hj
  | cons i rest ih =>
      intro j n tr hj
      cases j with
      | zero =>
          simp [writeFrames, traceOps, List.take_succ_cons, Except.bind]
      | succ j' =>
          have hne : (decide (n = n + (j' + 1))) = false := by
            simp
          have hstep : writeFrames (traceOps (fun c => decide (c = n + (j' + 1)))) g
              (tr, n) (i :: rest) =
                (if decide (n = n + (j' + 1)) = true then
                    Except.error (tr ++ [EncCall.frameCall (frameFor g i)])
                  else
                    Except.ok (tr ++ [EncCall.frameCall (frameFor g i)], n + 1)).bind
                  (fun e1 =>
                    writeFrames (traceOps (fun c => decide (c = n + (j' + 1)))) g e1 rest) :=
            rfl
          rw [hstep, hne]
          simp only [Bool.false_eq_true, if_false, Except.bind]
          have harith : n + (j' + 1) = (n + 1) + j' := by omega
          rw [harith]
          have hj' : j' < rest.length := by
            simp only [List.length_cons] at hj
            omega
          rw [ih j' (n + 1) (tr ++ [EncCall.frameCall (frameFor g i)]) hj']
          simp [List.take_succ_cons, List.append_assoc]

/-! ### Further concrete instances for witnesses -/

/-- A 100×100 image (only its dimensions matter to the check). -/
def img100 : Image := ⟨100, 100, []⟩

/-- A 50×50 image (only its dimensions matter to the check). -/
def img50 : Image := ⟨50, 50, []⟩

/-- The conversion of one opaque 1×1 image at 10 fps under `buildR`. -/
def gifTen : Gif :=
  { palette := [0, 0, 0], transparency := none, width := 1, height := 1,
    images := [[7]], delay := 100 }

/-- The conversion of one opaque 1×1 image at 30 fps under `buildR`. -/
def gifThirty : Gif :=
  { palette := [0, 0, 0], transparency := none, width := 1, height := 1,
    images := [[7]], delay := 33 }

/-! ## Claims -/

/-- Claim C1, counterexample: under a quantizer that distinguishes the two
colors, the two fully transparent pixels of `imgTwoTransparent` (raw RGBA
values (0,0,0,0) and (5,0,0,0)) are mapped to the distinct palette
indices 0 and 5, so not every alpha-0 pixel maps to the single marker
index. -/
theorem distinct_transparent_pixels_distinct_indices :
    engiffen buildR [imgTwoTransparent] 10 none =
      .ok { palette := [0, 0, 0], transparency := some 5, width := 2, height := 1,
            images := [[0, 5]], delay := 100 } ∧
    pixelAt [imgTwoTransparent] 0 0 = some ⟨0, 0, 0, 0⟩ ∧
    pixelAt [imgTwoTransparent] 0 1 = some ⟨5, 0, 0, 0⟩ ∧
    (0 : Nat) ≠ 5 :=
  ⟨rfl, rfl, rfl, by decide⟩

/-- Claim C1, amended: pixels carrying the same exact RGBA bytes — in
particular identical transparent pixels — map to the same palette index
anywhere in the output; transparent pixels with different RGB bytes are
distinct cache keys and may map to different indices. -/
theorem equal_transparent_pixels_equal_index (build : List Nat → Quant)
    (imgs : List Image) (fps : Nat) (sr : Option Nat) (g : Gif)
    (i1 j1 i2 j2 : Nat) (px : Pixel)
    (h : engiffen build imgs fps sr = .ok g)
    (ha : px.a = 0)
    (h1 : pixelAt imgs i1 j1 = some px)
    (h2 : pixelAt imgs i2 j2 = some px) :
    indexAt g i1 j1 = indexAt g i2 j2 := by
  rw [engiffen_indexAt build imgs fps sr g i1 j1 h,
    engiffen_indexAt build imgs fps sr g i2 j2 h, h1, h2]

/-- Claim C1, witness for the amended theorem: the transparent pixel
(0,0,0,0) occurs at position 0 of both frames and receives the same
index in both. -/
theorem equal_transparent_pixels_equal_index_witness :
    indexAt { palette := [0, 0, 0], transparency := some 5, width := 2, height := 1,
              images := [[0, 5], [0, 5]], delay := 100 } 0 0 =
      indexAt { palette := [0, 0, 0], transparency := some 5, width := 2, height := 1,
                images := [[0, 5], [0, 5]], delay := 100 } 1 0 :=
  equal_transparent_pixels_equal_index buildR [imgTwoTransparent, imgTwoTransparent]
    10 none _ 0 0 1 0 ⟨0, 0, 0, 0⟩ rfl rfl rfl rfl

/-- Claim C2, counterexample: the marker becomes `some 0` at the first
observed transparent pixel of `imgTwoTransparent`, yet the conversion
ends with marker `some 5`: the marker was overwritten by the second,
distinct transparent pixel. -/
theorem transparency_marker_overwritten :
    (mapPixel quantR ⟨[], none⟩ ⟨0, 0, 0, 0⟩).1.transparency = some 0 ∧
    engiffen buildR [imgTwoTransparent] 10 none =
      .ok { palette := [0, 0, 0], transparency := some 5, width := 2, height := 1,
            images := [[0, 5]], delay := 100 } ∧
    some (5 : Nat) ≠ some 0 :=
  ⟨rfl, rfl, by decide⟩

/-- Claim C2, amended: once the marker is set it remains set for the rest
of the pass (it is never cleared), but it is not write-once: every
cache-missing fully-transparent pixel assigns the marker that pixel's
palette index, so a later distinct transparent pixel overwrites the
stored value (last-writer-wins). -/
theorem transparency_marker_persistence (quant : Quant) (imgs : List Image)
    (st : MapState) :
    (st.transparency.isSome = true →
      (mapFrames quant st imgs).1.transparency.isSome = true) ∧
    (∀ px : Pixel, px.a = 0 → cacheFind st.cache px = none →
      (mapPixel quant st px).1.transparency = some (quant.index_of px)) :=
  ⟨mapFrames_transparency_isSome quant imgs st,
    fun px ha hc => mapPixel_transparent_miss quant st px ha hc⟩

/-- Claim C2, witness: starting from a state whose marker is `some 3`,
the marker is still set after a frame, and a cache-missing transparent
pixel overwrites it with that pixel's own index. -/
theorem transparency_marker_persistence_witness :
    (mapFrames quantR ⟨[], some 3⟩ [imgOpaque]).1.transparency.isSome = true ∧
    (mapPixel quantR ⟨[], some 3⟩ ⟨5, 0, 0, 0⟩).1.transparency =
      some (quantR.index_of ⟨5, 0, 0, 0⟩) :=
  ⟨(transparency_marker_persistence quantR [imgOpaque] ⟨[], some 3⟩).1 rfl,
    (transparency_marker_persistence quantR [] ⟨[], some 3⟩).2 ⟨5, 0, 0, 0⟩ rfl rfl⟩

/-- Claim C3, counterexample: the transparent pixel (5,0,0,0) is mapped
to index 5 — the quantizer's answer for the raw bytes — while a query
with the alpha-normalized color (0,0,0,0) would give index 0, as the
normalized variant of the pass shows. -/
theorem nearest_query_not_normalized :
    engiffen buildR [imgRedTransparent] 10 none =
      .ok { palette := [0, 0, 0], transparency := some 5, width := 1, height := 1,
            images := [[5]], delay := 100 } ∧
    quantR.index_of (normalizeAlpha ⟨5, 0, 0, 0⟩) = 0 ∧
    (mapFrameSpecNormalized quantR ⟨[], none⟩ [⟨5, 0, 0, 0⟩]).2 = [0] ∧
    (5 : Nat) ≠ 0 :=
  ⟨rfl, rfl, rfl, by decide⟩

/-- Claim C3, amended: on a cache miss the nearest-palette-index lookup
is performed with the pixel's exact raw RGBA bytes — no alpha
normalization happens in the index-mapping pass — so every output index
is the quantizer's answer for the raw pixel value. -/
theorem index_query_uses_raw_color (build : List Nat → Quant)
    (imgs : List Image) (fps : Nat) (sr : Option Nat) (g : Gif) (i j : Nat)
    (h : engiffen build imgs fps sr = .ok g) :
    indexAt g i j =
      (pixelAt imgs i j).map (build (sampleColors imgs sr)).index_of :=
  engiffen_indexAt build imgs fps sr g i j h

/-- Claim C3, witness: at the transparent pixel (5,0,0,0) the output
index is the quantizer's answer for the raw bytes. -/
theorem index_query_uses_raw_color_witness :
    indexAt { palette := [0, 0, 0], transparency := some 5, width := 1, height := 1,
              images := [[5]], delay := 100 } 0 0 =
      (pixelAt [imgRedTransparent] 0 0).map quantR.index_of :=
  index_query_uses_raw_color buildR [imgRedTransparent] 10 none _ 0 0 rfl

/-- Claim C4: when some image's dimensions differ from the first image's,
the conversion fails with a Mismatch error carrying the first image's
dimensions and the dimensions of the first differing image in iteration
order; when all dimensions agree, the check succeeds and the conversion
returns the common dimensions (as u16 values). -/
theorem dimension_check_correct (build : List Nat → Quant) (fps : Nat)
    (sr : Option Nat) (first : Image) (rest : List Image) :
    (∀ bad : Image,
        (first :: rest).find? (fun img => decide (dims img ≠ dims first)) = some bad →
        engiffen build (first :: rest) fps sr =
          .error (.Mismatch (dims first) (dims bad))) ∧
    ((∀ img ∈ first :: rest, dims img = dims first) →
      ∃ g : Gif, engiffen build (first :: rest) fps sr = .ok g ∧
        g.width = first.width % 65536 ∧ g.height = first.height % 65536) := by
  constructor
  · intro bad hbad
    have hm : firstMismatch (dims first) (first :: rest) = some (dims bad) := by
      rw [firstMismatch_eq_find, hbad]
      rfl
    simp [engiffen, hm]
  · intro hall
    have hm : firstMismatch (dims first) (first :: rest) = none :=
      (firstMismatch_eq_none_iff _ _).mpr hall
    exact ⟨_, engiffen_cons_eq build first rest fps sr hm, rfl, rfl⟩

/-- Claim C4, witness: one 100×100 image followed by one 50×50 image
fails with Mismatch ((100,100), (50,50)). -/
theorem dimension_check_correct_witness :
    engiffen buildR [img100, img50] 10 none =
      .error (.Mismatch (100, 100) (50, 50)) :=
  (dimension_check_correct buildR 10 none img100 [img50]).1 img50 rfl

/-- Claim C5: the empty image sequence fails with the NoImages error
before any other work. -/
theorem empty_input_no_images (build : List Nat → Quant) (fps : Nat)
    (sr : Option Nat) : engiffen build [] fps sr = .error .NoImages := rfl

/-- Claim C6: for any stride S ≥ 1 the sampling pass emits, per frame and
in row-major order, exactly one RGBA quadruple for each pixel whose
column and row indices are divisible by S — the quadruple being
(0,0,0,0) for an alpha-0 pixel and (r,g,b,255) otherwise — and an absent
stride behaves as S = 1 (every pixel). -/
theorem sampling_pass_spec (imgs : List Image) (S : Nat) (hS : 1 ≤ S) :
    sampleColors imgs (some S) = flattenQuads (sampleQuadsSpec imgs S) ∧
    sampleColors imgs none = flattenQuads (sampleQuadsSpec imgs 1) :=
  ⟨sampleColors_eq_spec imgs S hS, by
    rw [sampleColors_none_eq_one]
    exact sampleColors_eq_spec imgs 1 le_rfl⟩

/-- Claim C6, witness: sampling the 2×2 opaque image at stride 2 keeps
exactly the (0,0) pixel. -/
theorem sampling_pass_spec_witness :
    sampleColors [imgOpaque22] (some 2) =
      flattenQuads (sampleQuadsSpec [imgOpaque22] 2) ∧
    sampleColors [imgOpaque22] none = flattenQuads (sampleQuadsSpec [imgOpaque22] 1) :=
  sampling_pass_spec [imgOpaque22] 2 (by decide)

/-- Claim C7: for fps ≥ 1 a successful conversion stores internal delay
⌊1000 / fps⌋ and the per-frame descriptor divides it by 10 with integer
truncation. -/
theorem delay_computation (build : List Nat → Quant) (imgs : List Image)
    (fps : Nat) (sr : Option Nat) (g : Gif)
    (hfps : 1 ≤ fps) (h : engiffen build imgs fps sr = .ok g) :
    g.delay = 1000 / fps ∧
      ∀ buf : List Nat, (frameFor g buf).delay = (1000 / fps) / 10 := by
  have hd := (engiffen_ok_inv build imgs fps sr g h).2
  have hlt : 1000 / fps < 65536 :=
    lt_of_le_of_lt (Nat.div_le_self 1000 fps) (by omega)
  constructor
  · rw [hd, Nat.mod_eq_of_lt hlt]
  · intro buf
    show g.delay / 10 = (1000 / fps) / 10
    rw [hd, Nat.mod_eq_of_lt hlt]

/-- Claim C7, witness: fps = 10 gives internal delay 100 and serialized
delay 10; fps = 30 gives internal delay 33 and serialized delay 3. -/
theorem delay_computation_witness :
    gifTen.delay = 100 ∧ (frameFor gifTen [7]).delay = 10 ∧
    gifThirty.delay = 33 ∧ (frameFor gifThirty [7]).delay = 3 := by
  have h10 := delay_computation buildR [imgOpaque] 10 none gifTen (by decide) rfl
  have h30 := delay_computation buildR [imgOpaque] 30 none gifThirty (by decide) rfl
  exact ⟨h10.1, h10.2 [7], h30.1, h30.2 [7]⟩

/-- Claim C8: every non-empty sequence of equal-dimension images converts
successfully; the output holds one indexed frame per input image and
every frame has width × height entries. -/
theorem conversion_succeeds_counts (build : List Nat → Quant) (fps : Nat)
    (sr : Option Nat) (first : Image) (rest : List Image)
    (hfps : 1 ≤ fps)
    (hdims : ∀ img ∈ first :: rest, dims img = dims first) :
    ∃ g : Gif, engiffen build (first :: rest) fps sr = .ok g ∧
      g.images.length = (first :: rest).length ∧
      ∀ f ∈ g.images, f.length = first.width * first.height := by
  have hm : firstMismatch (dims first) (first :: rest) = none :=
    (firstMismatch_eq_none_iff _ _).mpr hdims
  refine ⟨_, engiffen_cons_eq build first rest fps sr hm, by simp, ?_⟩
  intro f hf
  simp only [List.mem_map] at hf
  obtain ⟨img, himg, rfl⟩ := hf
  rw [List.length_map, framePixels_length]
  have hd := hdims img himg
  unfold dims at hd
  have hw : img.width = first.width := by
    have := congrArg Prod.fst hd
    simpa using this
  have hh : img.height = first.height := by
    have := congrArg Prod.snd hd
    simpa using this
  rw [hw, hh, Nat.mul_comm]

/-- Claim C8, witness: two identical 2×2 images at 30 fps yield two
frames of four indices each. -/
theorem conversion_succeeds_counts_witness :
    (∀ img ∈ [imgOpaque22, imgOpaque22], dims img = dims imgOpaque22) ∧
    ∃ g : Gif, engiffen buildR [imgOpaque22, imgOpaque22] 30 none = .ok g ∧
      g.images.length = 2 ∧ ∀ f ∈ g.images, f.length = 4 :=
  ⟨by decide,
    conversion_succeeds_counts buildR 30 none imgOpaque22 [imgOpaque22]
      (by decide) (by decide)⟩

/-- Claim C9: against a tracing encoder, `Gif.write` performs exactly one
construction with the canvas size and palette, one set-loop-infinite
call, then one write-frame call per stored frame in order; a write-frame
failure at position k returns the error immediately with no frame after
k attempted, and a failing construction or set-loop call propagates its
error unchanged. -/
theorem writer_call_sequence (g : Gif) :
    (Gif.write (traceOps (fun _ => false)) g =
      .ok ([.newCall g.width g.height g.palette, .loopCall] ++
            g.images.map (fun i => .frameCall (frameFor g i)), g.images.length)) ∧
    (∀ k : Nat, k < g.images.length →
      Gif.write (traceOps (fun c => decide (c = k))) g =
        .error ([.newCall g.width g.height g.palette, .loopCall] ++
          (g.images.take (k + 1)).map (fun i => .frameCall (frameFor g i)))) ∧
    (∀ (ε enc : Type) (ops : EncoderOps ε enc) (err : ε),
      ops.new g.width g.height g.palette = .error err →
        Gif.write ops g = .error err) ∧
    (∀ (ε enc : Type) (ops : EncoderOps ε enc) (e : enc) (err : ε),
      ops.new g.width g.height g.palette = .ok e →
      ops.set_repeat_infinite e = .error err →
        Gif.write ops g = .error err) := by
  refine ⟨?_, ?_, ?_, ?_⟩
  · show writeFrames (traceOps (fun _ => false)) g
        ([.newCall g.width g.height g.palette, .loopCall], 0) g.images = _
    rw [writeFrames_trace_ok g g.images
      [.newCall g.width g.height g.palette, .loopCall] 0]
    rw [Nat.zero_add]
  · intro k hk
    have hf := writeFrames_trace_fail g g.images k 0
      [.newCall g.width g.height g.palette, .loopCall] hk
    simp only [Nat.zero_add] at hf
    show writeFrames (traceOps (fun c => decide (c = k))) g
        ([.newCall g.width g.height g.palette, .loopCall], 0) g.images = _
    exact hf
  · intro ε enc ops err hnew
    unfold Gif.write
    rw [hnew]
    rfl
  · intro ε enc ops e err hnew hset
    unfold Gif.write
    rw [hnew]
    show (ops.set_repeat_infinite e).bind _ = .error err
    rw [hset]
    rfl

/-- Claim C9, witness: with one stored frame and a write-frame failure at
position 0, the trace holds the construction, the loop call and the one
failing frame call, and the error is returned. -/
theorem writer_call_sequence_witness :
    Gif.write (traceOps (fun c => decide (c = 0))) gifTen =
      .error [.newCall 1 1 [0, 0, 0], .loopCall, .frameCall (frameFor gifTen [7])] :=
  (writer_call_sequence gifTen).2.1 0 (by decide)

/-- Claim C10: a subsampling stride of Some 0 behaves exactly like None
and Some 1 — the stride filter is only reachable for strides of at least
2, so every pixel is sampled and the conversion is unchanged. -/
theorem stride_zero_like_none (build : List Nat → Quant) (imgs : List Image)
    (fps : Nat) :
    engiffen build imgs fps (some 0) = engiffen build imgs fps none ∧
    engiffen build imgs fps (some 0) = engiffen build imgs fps (some 1) ∧
    sampleColors imgs (some 0) = flattenQuads (sampleQuadsSpec imgs 1) := by
  have h0 := sampleColors_zero_eq_none imgs
  refine ⟨engiffen_congr_colors build imgs fps (some 0) none h0,
    engiffen_congr_colors build imgs fps (some 0) (some 1)
      (h0.trans (sampleColors_none_eq_one imgs)), ?_⟩
  rw [h0, sampleColors_none_eq_one]
  exact sampleColors_eq_spec imgs 1 le_rfl

end Engiffen
